import Mathlib

/-!
Verification of the seven-segment font renderer (src/src/lib.rs).

The source performs its geometry in `f32`: integer pixel sizes are multiplied
by the literal constants 0.2, 0.05, 0.1, 1.2 and divided by 2.0, then rounded
with `ceil`/`floor` or cast with `as i32`/`as u32`.  For every pixel size in
the realistic range (below 2^23) those `f32` products round to the value of
the exact rational product, so the development models the `f32` arithmetic by
exact, unnormalized fractions (`Frac` below).  `as u32` casts of nonnegative
values saturate at 0 for negatives, which `Int.toNat` reproduces; `as i32`
truncates toward zero, reproduced by `Frac.trunc`.  `u32` subtraction is
modelled by truncated `Nat` subtraction; the underflow regime (degenerate
cell sizes) is outside every claim, as the spec itself leaves it undefined.
The outer draw target is assumed to contain the character cells, as in the
crate doc example (out-of-bounds drawing allowed), so a cell cropped out of
the display keeps the configured cell size.
-/

namespace Font7SegSpec

/-- An exact, unnormalized fraction `num / den`, modelling one `f32` value of
the source.  Denominators built by the operations below are always positive
products of literal denominators. -/
structure Frac where
  num : Int
  den : Nat
deriving DecidableEq

/-- Conversion `n as f32` of an integer pixel count. -/
def Frac.ofNat (n : Nat) : Frac := ⟨(n : Int), 1⟩

/-- f32 addition, modelled exactly. -/
def Frac.add (a b : Frac) : Frac :=
  ⟨a.num * (b.den : Int) + b.num * (a.den : Int), a.den * b.den⟩

/-- f32 subtraction, modelled exactly. -/
def Frac.sub (a b : Frac) : Frac :=
  ⟨a.num * (b.den : Int) - b.num * (a.den : Int), a.den * b.den⟩

/-- f32 multiplication, modelled exactly. -/
def Frac.mul (a b : Frac) : Frac := ⟨a.num * b.num, a.den * b.den⟩

/-- `n as f32 * rate`: an integer pixel count scaled by a rate. -/
def Frac.scale (n : Nat) (r : Frac) : Frac := ⟨(n : Int) * r.num, r.den⟩

/-- Division by `2.0`. -/
def Frac.half (a : Frac) : Frac := ⟨a.num, a.den * 2⟩

/-- `.floor()`: with a positive denominator, `Int.ediv` rounds toward
negative infinity, which is exactly `f32::floor` followed by an exact cast. -/
def Frac.floor (a : Frac) : Int := a.num / (a.den : Int)

/-- `.ceil()` under the same reading. -/
def Frac.ceil (a : Frac) : Int := -((-a.num) / (a.den : Int))

/-- The `as i32` cast: truncation toward zero. -/
def Frac.trunc (a : Frac) : Int :=
  if 0 ≤ a.num then a.num / (a.den : Int) else -((-a.num) / (a.den : Int))

/-- `.floor() as u32`: floor, then saturate below at 0. -/
def Frac.floorNat (a : Frac) : Nat := a.floor.toNat

/-- `.ceil() as u32`: ceiling, then saturate below at 0. -/
def Frac.ceilNat (a : Frac) : Nat := a.ceil.toNat

/-- embedded_graphics `Size` (u32 width and height). -/
structure Size where
  width : Nat
  height : Nat
deriving DecidableEq

/-- embedded_graphics `Point` (i32 coordinates). -/
structure Point where
  x : Int
  y : Int
deriving DecidableEq

/-- embedded_graphics `Rectangle`: a top-left corner and a size. -/
structure Rectangle where
  top_left : Point
  size : Size
deriving DecidableEq

/-- The size of the bounding box of `parent.cropped(&r)`: embedded_graphics
intersects the requested rectangle with the parent bounding box
(`Rectangle::intersection`), clamping an empty overlap to a zero size. -/
def cropSize (parent : Size) (r : Rectangle) : Size :=
  let x0 := max r.top_left.x 0
  let y0 := max r.top_left.y 0
  let x1 := min (r.top_left.x + (r.size.width : Int)) ((parent.width : Int))
  let y1 := min (r.top_left.y + (r.size.height : Int)) ((parent.height : Int))
  ⟨(x1 - x0).toNat, (y1 - y0).toNat⟩

/-- The seven segments, in the conventional lettering a..g. -/
inductive Seg where
  | a | b | c | d | e | f | g
deriving DecidableEq

/-- One drawing action of the model: a background clear of a character cell,
one segment placement call, or the decimal point renderer. -/
inductive DrawOp (C : Type) where
  | clear (color : C)
  | seg (s : Seg)
  | point
deriving DecidableEq

/-- The font configuration (struct `Font7Seg`, lines 44-52). -/
structure Font7Seg (C : Type) where
  size : Size
  text_color : C
  background_color : Option C
  line_width_rate : Frac
  top_margin_rate : Frac
  left_margin_rate : Frac
  point_width_rate : Frac

/-- `Font7Seg::new` (lines 58-68): the defaults are 0.2, 0.05, 0.05, 0.2. -/
def Font7Seg.new {C : Type} (size : Size) (text_color : C) : Font7Seg C :=
  { size := size
    text_color := text_color
    background_color := none
    line_width_rate := ⟨1, 5⟩
    top_margin_rate := ⟨1, 20⟩
    left_margin_rate := ⟨1, 20⟩
    point_width_rate := ⟨1, 5⟩ }

/-- `CharacterStyle::set_background_color` (lines 376-378). -/
def set_background_color {C : Type} (font : Font7Seg C) (c : Option C) :
    Font7Seg C :=
  { font with background_color := c }

/-- The digit-to-segment pattern table `SEG_PATS` (lines 314-325). -/
def SEG_PATS : List Nat :=
  [0b00111111, 0b00000110, 0b01011011, 0b01001111, 0b01100110,
   0b01101101, 0b01111101, 0b00100111, 0b01111111, 0b01101111]

/-- The chain of pattern tests in `draw_number` (lines 330-350): each bit is
tested in order and the matching segment placement function is invoked. -/
def segOpsOfPat (pat : Nat) : List Seg :=
  (if pat &&& 0b00000001 ≠ 0 then [Seg.a] else []) ++
  (if pat &&& 0b00000010 ≠ 0 then [Seg.b] else []) ++
  (if pat &&& 0b00000100 ≠ 0 then [Seg.c] else []) ++
  (if pat &&& 0b00001000 ≠ 0 then [Seg.d] else []) ++
  (if pat &&& 0b00010000 ≠ 0 then [Seg.e] else []) ++
  (if pat &&& 0b00100000 ≠ 0 then [Seg.f] else []) ++
  (if pat &&& 0b01000000 ≠ 0 then [Seg.g] else [])

/-- The inset glyph-cell rectangle computed at the start of `draw_number`
(lines 302-312).  Note the source passes `top_margin.ceil()` as the x
coordinate and `left_margin.ceil()` as the y coordinate of `Point::new`,
while the size subtracts the left margin from the width and the top margin
from the height. -/
def cellRect {C : Type} (font : Font7Seg C) (area : Size) : Rectangle :=
  let top_margin := Frac.scale area.height font.top_margin_rate
  let left_margin := Frac.scale area.width font.left_margin_rate
  let top_left : Point := ⟨top_margin.ceil, left_margin.ceil⟩
  let size : Size :=
    ⟨area.width - left_margin.ceilNat * 2, area.height - top_margin.ceilNat * 2⟩
  ⟨top_left, size⟩

/-- Modelled from the spec (section 4.1 Cell Layout): top-left offset
(ceil(W·left_margin_ratio), ceil(H·top_margin_ratio)), size
(W − 2·ceil(W·left_margin_ratio), H − 2·ceil(H·top_margin_ratio)).
Stated for comparison with the source-derived cellRect. -/
def cellRect_spec {C : Type} (font : Font7Seg C) (area : Size) : Rectangle :=
  let top_margin := Frac.scale area.height font.top_margin_rate
  let left_margin := Frac.scale area.width font.left_margin_rate
  ⟨⟨left_margin.ceil, top_margin.ceil⟩,
   ⟨area.width - left_margin.ceilNat * 2, area.height - top_margin.ceilNat * 2⟩⟩

/-- The crop rectangle computed at the top of `draw_segment_vert`
(lines 79-86): height_diff = height·0.1, top = floor((height_diff + width)/2),
height = floor(height − height_diff·2), full width. -/
def draw_segment_vert_crop (s : Size) : Rectangle :=
  let height_diff := Frac.scale s.height ⟨1, 10⟩
  let area_top : Int := ((height_diff.add (Frac.ofNat s.width)).half).floor
  let area_height : Nat :=
    ((Frac.ofNat s.height).sub (height_diff.mul ⟨2, 1⟩)).floorNat
  ⟨⟨0, area_top⟩, ⟨s.width, area_height⟩⟩

/-- The six hexagon corner points of `draw_segment_vert` (lines 88-103),
computed from the cropped area: w_center = width/2, v_base_top = width·1.2/2,
v_base_bottom = height − v_base_top, each cast with `as i32`. -/
def draw_segment_vert_points (s : Size) : List Point :=
  let s' := cropSize s (draw_segment_vert_crop s)
  let w := s'.width
  let h := s'.height
  let w_center : Int := ((Frac.ofNat w).half).trunc
  let v_base_top : Int := ((Frac.scale w ⟨6, 5⟩).half).trunc
  let v_base_bottom : Int :=
    ((Frac.ofNat h).sub ((Frac.scale w ⟨6, 5⟩).half)).trunc
  [⟨w_center, 0⟩, ⟨(w : Int), v_base_top⟩, ⟨(w : Int), v_base_bottom⟩,
   ⟨w_center, (h : Int)⟩, ⟨0, v_base_bottom⟩, ⟨0, v_base_top⟩]

/-- The sub-rectangle segment b is drawn into (`draw_seg_b`, lines 169-182):
width ceil(W·line_width_rate), height ceil(H/2), top-right corner. -/
def draw_seg_b_rect {C : Type} (font : Font7Seg C) (s : Size) : Rectangle :=
  let seg_width := (Frac.scale s.width font.line_width_rate).ceilNat
  let seg_height := ((Frac.ofNat s.height).half).ceilNat
  ⟨⟨((s.width - seg_width : Nat) : Int), 0⟩, ⟨seg_width, seg_height⟩⟩

/-- The sub-rectangle segment c is drawn into (`draw_seg_c`, lines 184-200):
width ceil(W·line_width_rate), height ceil(H/2), right edge, top offset
ceil(H/2 − W·line_width_rate/2). -/
def draw_seg_c_rect {C : Type} (font : Font7Seg C) (s : Size) : Rectangle :=
  let seg_width_f := Frac.scale s.width font.line_width_rate
  let seg_width := seg_width_f.ceilNat
  let seg_height := ((Frac.ofNat s.height).half).ceilNat
  let seg_top : Int := (((Frac.ofNat s.height).half).sub seg_width_f.half).ceil
  let seg_left : Int := ((s.width - seg_width : Nat) : Int)
  ⟨⟨seg_left, seg_top⟩, ⟨seg_width, seg_height⟩⟩

/-- The sub-rectangle segment e is drawn into (`draw_seg_e`, lines 217-232):
like segment c but flush to the left edge. -/
def draw_seg_e_rect {C : Type} (font : Font7Seg C) (s : Size) : Rectangle :=
  let seg_width_f := Frac.scale s.width font.line_width_rate
  let seg_width := seg_width_f.ceilNat
  let seg_height := ((Frac.ofNat s.height).half).ceilNat
  let seg_top : Int := (((Frac.ofNat s.height).half).sub seg_width_f.half).ceil
  ⟨⟨0, seg_top⟩, ⟨seg_width, seg_height⟩⟩

/-- The sub-rectangle segment f is drawn into (`draw_seg_f`, lines 234-247):
width ceil(W·line_width_rate), height ceil(H/2), top-left corner. -/
def draw_seg_f_rect {C : Type} (font : Font7Seg C) (s : Size) : Rectangle :=
  let seg_width := (Frac.scale s.width font.line_width_rate).ceilNat
  let seg_height := ((Frac.ofNat s.height).half).ceilNat
  ⟨⟨0, 0⟩, ⟨seg_width, seg_height⟩⟩

/-- The outcome of `draw_seg_point` (lines 266-288): the crop rectangle it
restricts drawing to, and the center and diameter of the circle it draws. -/
structure PointGlyph where
  crop : Rectangle
  center : Point
  diameter : Nat
deriving DecidableEq

/-- `draw_seg_point` (lines 266-288): crop to width ceil(width·point_width_rate)
and full height; radius = cropped width/2; center at (floor(radius),
floor(cropped height − radius·2)); diameter floor(radius·2). -/
def draw_seg_point {C : Type} (font : Font7Seg C) (s : Size) : PointGlyph :=
  let n_width : Nat := (Frac.scale s.width font.point_width_rate).ceilNat
  let crop : Rectangle := ⟨⟨0, 0⟩, ⟨n_width, s.height⟩⟩
  let s' := cropSize s crop
  let radius := (Frac.ofNat s'.width).half
  let center_y := (Frac.ofNat s'.height).sub (radius.mul ⟨2, 1⟩)
  ⟨crop, ⟨radius.floor, center_y.floor⟩, (radius.mul ⟨2, 1⟩).floorNat⟩

/-- `draw_number` (lines 298-360): crops the margins off, then either runs the
decimal point renderer or looks up `SEG_PATS[(num % 10)]` and invokes the
enabled segments in order; returns the advance width.  The draw target is
abstracted to the list of invoked drawing actions; an out-of-bounds table
index would be a panic, modelled by `Option.none`. -/
def draw_number {C : Type} (font : Font7Seg C) (num : Nat) (point : Bool)
    (area : Size) : Option (Nat × List (DrawOp C)) :=
  let all_area_width := area.width
  let cell := cellRect font area
  if point then
    let p_width := (Frac.scale cell.size.width font.point_width_rate).ceilNat
    some (all_area_width - cell.size.width + p_width, [DrawOp.point])
  else
    match SEG_PATS.get? (num % 10) with
    | none => none
    | some pat => some (all_area_width, (segOpsOfPat pat).map DrawOp.seg)

/-- `calc_point_width` (lines 362-366). -/
def calc_point_width {C : Type} (font : Font7Seg C) : Nat :=
  let left_margin := Frac.scale font.size.width font.left_margin_rate
  let p_width :=
    ((Frac.ofNat font.size.width).sub (left_margin.mul ⟨2, 1⟩)).mul
      font.point_width_rate
  (p_width.add (left_margin.mul ⟨2, 1⟩)).ceilNat

/-- `TextRenderer::draw_string` (lines 383-410), on the character list of the
text: per character, optionally clear the cell to the background color, draw
a digit or the decimal point (other characters draw nothing and contribute
width 0), and advance the cursor by the returned width. -/
def draw_string_chars {C : Type} (font : Font7Seg C) :
    List Char → Point → Option (Point × List (DrawOp C))
  | [], pos => some (pos, [])
  | ch :: rest, pos =>
    let bg : List (DrawOp C) :=
      match font.background_color with
      | some b => [DrawOp.clear b]
      | none => []
    let step : Option (Nat × List (DrawOp C)) :=
      if ch.isDigit then draw_number font (ch.toNat - '0'.toNat) false font.size
      else if ch = '.' then draw_number font 0 true font.size
      else some (0, [])
    match step with
    | none => none
    | some (w, ops) =>
      match draw_string_chars font rest ⟨pos.x + (w : Int), pos.y⟩ with
      | none => none
      | some (fin, ops2) => some (fin, bg ++ ops ++ ops2)

/-- embedded_graphics `TextMetrics`. -/
structure TextMetrics where
  bounding_box : Rectangle
  next_position : Point
deriving DecidableEq

/-- `TextRenderer::measure_string` (lines 425-439). -/
def measure_string {C : Type} (font : Font7Seg C) (text : List Char)
    (pos : Point) : TextMetrics :=
  let width := text.foldl
    (fun w ch =>
      if ch.isDigit then w + font.size.width
      else if ch = '.' then w + calc_point_width font
      else w) 0
  { bounding_box := ⟨pos, ⟨width, font.size.height⟩⟩
    next_position := ⟨pos.x + (width : Int), pos.y⟩ }

/-- The per-character width as the spec words it: cell width for an ASCII
digit, calc_point_width for the decimal point, 0 otherwise. -/
def specCharWidth {C : Type} (font : Font7Seg C) (ch : Char) : Nat :=
  if ch.isDigit then font.size.width
  else if ch = '.' then calc_point_width font
  else 0

end Font7SegSpec

namespace Font7SegSpec

lemma ite_singleton_sublist (c : Prop) [Decidable c] (x : Seg) :
    (if c then [x] else []).Sublist [x] := by
  split
  · exact List.Sublist.refl _
  · exact List.nil_sublist _

/-- C1: the claim says the inset cell has top-left offset
(ceil(W·left_margin_ratio), ceil(H·top_margin_ratio)).  The code computes the
size that way, but passes the two ceiled margins to Point::new in the
opposite order, so at the 10x40 cell with the default ratios the computed
offset is (2, 1) while the stated (and internally consistent) offset is
(1, 2); the sizes agree. -/
theorem C1_cell_offset_swapped :
    cellRect (Font7Seg.new ⟨10, 40⟩ (0 : Nat)) ⟨10, 40⟩ = ⟨⟨2, 1⟩, ⟨8, 36⟩⟩ ∧
    cellRect_spec (Font7Seg.new ⟨10, 40⟩ (0 : Nat)) ⟨10, 40⟩ = ⟨⟨1, 2⟩, ⟨8, 36⟩⟩ ∧
    cellRect (Font7Seg.new ⟨10, 40⟩ (0 : Nat)) ⟨10, 40⟩ ≠
      cellRect_spec (Font7Seg.new ⟨10, 40⟩ (0 : Nat)) ⟨10, 40⟩ := by
  decide

/-- C2: digit 8 renders with pattern 0b0111_1111 invoking all of a..g, digit 1
with 0b0000_0110 invoking exactly b and c, digit 0 with 0b0011_1111 invoking
a,b,c,d,e,f but not g; and for every pattern the invoked segments form a
subsequence of a,b,c,d,e,f,g, i.e. they are invoked in bit order. -/
theorem C2_digit_patterns :
    (∀ pat : Nat,
      (segOpsOfPat pat).Sublist
        [Seg.a, Seg.b, Seg.c, Seg.d, Seg.e, Seg.f, Seg.g]) ∧
    segOpsOfPat 0b01111111 = [Seg.a, Seg.b, Seg.c, Seg.d, Seg.e, Seg.f, Seg.g] ∧
    segOpsOfPat 0b00000110 = [Seg.b, Seg.c] ∧
    segOpsOfPat 0b00111111 = [Seg.a, Seg.b, Seg.c, Seg.d, Seg.e, Seg.f] ∧
    (∀ (font : Font7Seg Nat) (area : Size),
      draw_number font 8 false area
        = some (area.width, (segOpsOfPat 0b01111111).map DrawOp.seg) ∧
      draw_number font 1 false area
        = some (area.width, (segOpsOfPat 0b00000110).map DrawOp.seg) ∧
      draw_number font 0 false area
        = some (area.width, (segOpsOfPat 0b00111111).map DrawOp.seg)) := by
  refine ⟨?_, by decide, by decide, by decide, ?_⟩
  · intro pat
    simp only [segOpsOfPat]
    exact List.Sublist.append
      (List.Sublist.append
        (List.Sublist.append
          (List.Sublist.append
            (List.Sublist.append
              (List.Sublist.append
                (ite_singleton_sublist (pat &&& 0b00000001 ≠ 0) Seg.a)
                (ite_singleton_sublist (pat &&& 0b00000010 ≠ 0) Seg.b))
              (ite_singleton_sublist (pat &&& 0b00000100 ≠ 0) Seg.c))
            (ite_singleton_sublist (pat &&& 0b00001000 ≠ 0) Seg.d))
          (ite_singleton_sublist (pat &&& 0b00010000 ≠ 0) Seg.e))
        (ite_singleton_sublist (pat &&& 0b00100000 ≠ 0) Seg.f))
      (ite_singleton_sublist (pat &&& 0b01000000 ≠ 0) Seg.g)
  · intro font area
    exact ⟨rfl, rfl, rfl⟩

/-- C5: the claim says the advance draw_number returns for the decimal point
equals calc_point_width, the per-point width measure_string adds.  At the
default configuration with cell width 10 the draw advance is 4 (the inset
width uses the ceiled margin) while calc_point_width is 3 (it uses the exact
margin), so draw_string and measure_string disagree on the same text. -/
theorem C5_point_advance_mismatch :
    draw_number (Font7Seg.new ⟨10, 20⟩ (0 : Nat)) 0 true ⟨10, 20⟩
      = some (4, [DrawOp.point]) ∧
    calc_point_width (Font7Seg.new ⟨10, 20⟩ (0 : Nat)) = 3 ∧
    (draw_string_chars (Font7Seg.new ⟨10, 20⟩ (0 : Nat)) ['.'] ⟨0, 0⟩).map
      (fun r => r.1) = some ⟨4, 0⟩ ∧
    (measure_string (Font7Seg.new ⟨10, 20⟩ (0 : Nat)) ['.'] ⟨0, 0⟩).next_position
      = ⟨3, 0⟩ := by
  decide


/-- C3 counterexample: the claim says draw_segment_vert shrinks the area
vertically by 10% of its height in total, 5% off each end.  For a 3x20
sub-rectangle that would leave height 18 with top offset 1; the code crops to
height floor(20 - 2*0.1*20) = 16 with top offset floor((0.1*20 + 3)/2) = 2. -/
theorem C3_counterexample :
    draw_segment_vert_crop ⟨3, 20⟩ = ⟨⟨0, 2⟩, ⟨3, 16⟩⟩ ∧
    draw_segment_vert_crop ⟨3, 20⟩ ≠ ⟨⟨0, 1⟩, ⟨3, 18⟩⟩ := by
  decide

/-- C3 (amended): draw_segment_vert shrinks the drawing area vertically by
20% of its height in total, cropping to height floor(0.8·h) with top offset
floor((0.1·h + w)/2) = floor((h + 10·w)/20), and the hexagon shoulders are
offset from the cropped area by floor(w·1.2/2) = floor(0.6·w) below its top
edge and ceil(0.6·w) above its bottom edge (w, h the cropped size). -/
theorem C3_vert_segment_geometry (s : Size) (w h : Nat)
    (hs : cropSize s (draw_segment_vert_crop s) = ⟨w, h⟩)
    (hwh : 3 * w ≤ 5 * h) :
    (draw_segment_vert_crop s).top_left
      = ⟨0, ((s.height : Int) + 10 * s.width) / 20⟩ ∧
    (draw_segment_vert_crop s).size = ⟨s.width, 4 * s.height / 5⟩ ∧
    draw_segment_vert_points s =
      [⟨((w / 2 : Nat) : Int), 0⟩,
       ⟨(w : Int), ((3 * w / 5 : Nat) : Int)⟩,
       ⟨(w : Int), (h : Int) - ((3 * w + 4) / 5 : Nat)⟩,
       ⟨((w / 2 : Nat) : Int), (h : Int)⟩,
       ⟨0, (h : Int) - ((3 * w + 4) / 5 : Nat)⟩,
       ⟨0, ((3 * w / 5 : Nat) : Int)⟩] := by
  refine ⟨?_, ?_, ?_⟩
  · simp only [draw_segment_vert_crop, Frac.scale, Frac.ofNat, Frac.add,
      Frac.half, Frac.floor, Point.mk.injEq, true_and, and_true]
    push_cast
    omega
  · simp only [draw_segment_vert_crop, Frac.scale, Frac.ofNat, Frac.mul,
      Frac.sub, Frac.floorNat, Frac.floor, Size.mk.injEq, true_and, and_true]
    push_cast
    omega
  · simp only [draw_segment_vert_points, hs, Frac.ofNat, Frac.scale, Frac.sub,
      Frac.half, Frac.trunc, List.cons.injEq, Point.mk.injEq, true_and,
      and_true]
    push_cast
    split_ifs <;> omega

/-- C3 witness: the amended geometry at the 3x20 sub-rectangle. -/
theorem C3_vert_segment_geometry_witness :
    (draw_segment_vert_crop ⟨3, 20⟩).top_left
      = ⟨0, ((20 : Int) + 10 * 3) / 20⟩ ∧
    (draw_segment_vert_crop ⟨3, 20⟩).size = ⟨3, 4 * 20 / 5⟩ ∧
    draw_segment_vert_points ⟨3, 20⟩ =
      [⟨((3 / 2 : Nat) : Int), 0⟩,
       ⟨(3 : Int), ((3 * 3 / 5 : Nat) : Int)⟩,
       ⟨(3 : Int), (16 : Int) - ((3 * 3 + 4) / 5 : Nat)⟩,
       ⟨((3 / 2 : Nat) : Int), (16 : Int)⟩,
       ⟨0, (16 : Int) - ((3 * 3 + 4) / 5 : Nat)⟩,
       ⟨0, ((3 * 3 / 5 : Nat) : Int)⟩] :=
  C3_vert_segment_geometry ⟨3, 20⟩ 3 16 (by decide) (by decide)

/-- C6 counterexample: the claim says the decimal point circle has diameter
2·floor(sub_width/2) and vertical center floor(sub_height − diameter).  On a
15x20 cell with the default point width ratio the sub-rectangle is 3 wide, so
the claim predicts diameter 2 and center y 18; the code passes
floor(radius·2) = 3 as the diameter and centers at y = 17. -/
theorem C6_counterexample :
    draw_seg_point (Font7Seg.new ⟨15, 20⟩ (0 : Nat)) ⟨15, 20⟩
      = ⟨⟨⟨0, 0⟩, ⟨3, 20⟩⟩, ⟨1, 17⟩, 3⟩ ∧
    (draw_seg_point (Font7Seg.new ⟨15, 20⟩ (0 : Nat)) ⟨15, 20⟩).diameter
      ≠ 2 * (3 / 2) ∧
    (draw_seg_point (Font7Seg.new ⟨15, 20⟩ (0 : Nat)) ⟨15, 20⟩).center.y
      ≠ 20 - 2 * ((3 : Int) / 2) := by
  decide

/-- C6 (amended): draw_seg_point restricts drawing to a sub-rectangle of
width ceil(cell_width × point_width_ratio) and full cell height, and within
it draws a filled circle of diameter exactly the cropped sub-width w, with
center horizontally at floor(w/2) and vertically at sub_height − w. -/
theorem C6_point_geometry {C : Type} (font : Font7Seg C) (s : Size)
    (w h : Nat)
    (hs : cropSize s
        ⟨⟨0, 0⟩, ⟨(Frac.scale s.width font.point_width_rate).ceilNat, s.height⟩⟩
      = ⟨w, h⟩) :
    draw_seg_point font s =
      ⟨⟨⟨0, 0⟩, ⟨(Frac.scale s.width font.point_width_rate).ceilNat, s.height⟩⟩,
       ⟨((w / 2 : Nat) : Int), (h : Int) - (w : Int)⟩, w⟩ := by
  simp only [draw_seg_point, hs, Frac.ofNat, Frac.half, Frac.mul, Frac.sub,
    Frac.floor, Frac.floorNat, PointGlyph.mk.injEq, Point.mk.injEq, true_and,
    and_true]
  push_cast
  omega

/-- C6 witness: the amended point geometry at the 15x20 cell with the
default configuration. -/
theorem C6_point_geometry_witness :
    draw_seg_point (Font7Seg.new ⟨15, 20⟩ (0 : Nat)) ⟨15, 20⟩
      = ⟨⟨⟨0, 0⟩,
          ⟨(Frac.scale 15 (Font7Seg.new ⟨15, 20⟩ (0 : Nat)).point_width_rate).ceilNat,
           20⟩⟩,
         ⟨((3 / 2 : Nat) : Int), (20 : Int) - (3 : Int)⟩, 3⟩ :=
  C6_point_geometry (Font7Seg.new ⟨15, 20⟩ (0 : Nat)) ⟨15, 20⟩ 3 20 (by decide)


/-- C7 counterexample: the claim says segments c and e occupy the bottom half
of the cell.  In a 10x20 cell with the default configuration the bottom half
starts at row 10, but draw_seg_c and draw_seg_e place their ceil(H/2)-high
sub-rectangle at row ceil(H/2 - W·line_width_rate/2) = 9, straddling the
midline instead of starting at it. -/
theorem C7_counterexample :
    draw_seg_c_rect (Font7Seg.new ⟨10, 20⟩ (0 : Nat)) ⟨10, 20⟩
      = ⟨⟨8, 9⟩, ⟨2, 10⟩⟩ ∧
    draw_seg_e_rect (Font7Seg.new ⟨10, 20⟩ (0 : Nat)) ⟨10, 20⟩
      = ⟨⟨0, 9⟩, ⟨2, 10⟩⟩ ∧
    (draw_seg_c_rect (Font7Seg.new ⟨10, 20⟩ (0 : Nat)) ⟨10, 20⟩).top_left.y
      ≠ 10 ∧
    (draw_seg_e_rect (Font7Seg.new ⟨10, 20⟩ (0 : Nat)) ⟨10, 20⟩).top_left.y
      ≠ 10 := by
  decide

lemma half_ceilNat (H : Nat) : ((Frac.ofNat H).half).ceilNat = (H + 1) / 2 := by
  simp only [Frac.ofNat, Frac.half, Frac.ceilNat, Frac.ceil]
  push_cast
  omega

/-- C7 (amended): in a glyph cell of size (W,H), draw_seg_c and draw_seg_e
place segments of equal size: thickness ceil(W·line_width_rate) and height
ceil(H/2), c flush against the right edge and e flush against the left edge;
their common top offset is ceil(H/2 − W·line_width_rate/2), the bottom half
shifted up by half the unrounded line thickness, not the bottom half itself.
Segments b and f occupy the top ceil(H/2) rows at the right and left edges. -/
theorem C7_seg_ce_placement {C : Type} (font : Font7Seg C) (W H : Nat)
    (hw : (Frac.scale W font.line_width_rate).ceilNat ≤ W) :
    draw_seg_c_rect font ⟨W, H⟩
      = ⟨⟨(W : Int) - (Frac.scale W font.line_width_rate).ceilNat,
          (((Frac.ofNat H).half).sub
            ((Frac.scale W font.line_width_rate).half)).ceil⟩,
         ⟨(Frac.scale W font.line_width_rate).ceilNat, (H + 1) / 2⟩⟩ ∧
    draw_seg_e_rect font ⟨W, H⟩
      = ⟨⟨0, (((Frac.ofNat H).half).sub
            ((Frac.scale W font.line_width_rate).half)).ceil⟩,
         ⟨(Frac.scale W font.line_width_rate).ceilNat, (H + 1) / 2⟩⟩ ∧
    (draw_seg_c_rect font ⟨W, H⟩).top_left.x
        + ((Frac.scale W font.line_width_rate).ceilNat : Int) = W ∧
    draw_seg_b_rect font ⟨W, H⟩
      = ⟨⟨(W : Int) - (Frac.scale W font.line_width_rate).ceilNat, 0⟩,
         ⟨(Frac.scale W font.line_width_rate).ceilNat, (H + 1) / 2⟩⟩ ∧
    draw_seg_f_rect font ⟨W, H⟩
      = ⟨⟨0, 0⟩, ⟨(Frac.scale W font.line_width_rate).ceilNat, (H + 1) / 2⟩⟩ := by
  refine ⟨?_, ?_, ?_, ?_, ?_⟩
  · simp [draw_seg_c_rect, half_ceilNat, Int.ofNat_sub hw]
  · simp [draw_seg_e_rect, half_ceilNat]
  · simp only [draw_seg_c_rect, Int.ofNat_sub hw]
    omega
  · simp [draw_seg_b_rect, half_ceilNat, Int.ofNat_sub hw]
  · simp [draw_seg_f_rect, half_ceilNat]

/-- C7 witness: the amended placement at the 10x20 cell with the default
configuration. -/
theorem C7_seg_ce_placement_witness :
    draw_seg_c_rect (Font7Seg.new ⟨10, 20⟩ (0 : Nat)) ⟨10, 20⟩
      = ⟨⟨(10 : Int)
            - (Frac.scale 10
                (Font7Seg.new ⟨10, 20⟩ (0 : Nat)).line_width_rate).ceilNat,
          (((Frac.ofNat 20).half).sub
            ((Frac.scale 10
              (Font7Seg.new ⟨10, 20⟩ (0 : Nat)).line_width_rate).half)).ceil⟩,
         ⟨(Frac.scale 10
            (Font7Seg.new ⟨10, 20⟩ (0 : Nat)).line_width_rate).ceilNat,
          (20 + 1) / 2⟩⟩ ∧
    draw_seg_e_rect (Font7Seg.new ⟨10, 20⟩ (0 : Nat)) ⟨10, 20⟩
      = ⟨⟨0, (((Frac.ofNat 20).half).sub
            ((Frac.scale 10
              (Font7Seg.new ⟨10, 20⟩ (0 : Nat)).line_width_rate).half)).ceil⟩,
         ⟨(Frac.scale 10
            (Font7Seg.new ⟨10, 20⟩ (0 : Nat)).line_width_rate).ceilNat,
          (20 + 1) / 2⟩⟩ ∧
    (draw_seg_c_rect (Font7Seg.new ⟨10, 20⟩ (0 : Nat)) ⟨10, 20⟩).top_left.x
        + ((Frac.scale 10
            (Font7Seg.new ⟨10, 20⟩ (0 : Nat)).line_width_rate).ceilNat : Int)
      = 10 ∧
    draw_seg_b_rect (Font7Seg.new ⟨10, 20⟩ (0 : Nat)) ⟨10, 20⟩
      = ⟨⟨(10 : Int)
            - (Frac.scale 10
                (Font7Seg.new ⟨10, 20⟩ (0 : Nat)).line_width_rate).ceilNat, 0⟩,
         ⟨(Frac.scale 10
            (Font7Seg.new ⟨10, 20⟩ (0 : Nat)).line_width_rate).ceilNat,
          (20 + 1) / 2⟩⟩ ∧
    draw_seg_f_rect (Font7Seg.new ⟨10, 20⟩ (0 : Nat)) ⟨10, 20⟩
      = ⟨⟨0, 0⟩,
         ⟨(Frac.scale 10
            (Font7Seg.new ⟨10, 20⟩ (0 : Nat)).line_width_rate).ceilNat,
          (20 + 1) / 2⟩⟩ :=
  C7_seg_ce_placement (Font7Seg.new ⟨10, 20⟩ (0 : Nat)) 10 20 (by decide)

lemma measure_fold {C : Type} (font : Font7Seg C) (l : List Char) (a : Nat) :
    l.foldl
      (fun w ch =>
        if ch.isDigit then w + font.size.width
        else if ch = '.' then w + calc_point_width font
        else w) a
    = a + (l.map (specCharWidth font)).sum := by
  induction l generalizing a with
  | nil => simp
  | cons ch t ih =>
    simp only [List.foldl_cons, List.map_cons, List.sum_cons, ih,
      specCharWidth]
    split_ifs <;> simp [Nat.add_assoc]

/-- C4: measure_string returns exactly the sum, over the characters of the
text, of the cell width for an ASCII digit, calc_point_width for a decimal
point, and 0 for anything else; the bounding box is anchored at the given
origin with that width and the configured cell height, and next_position is
the origin advanced horizontally by that width. -/
theorem C4_measure_string {C : Type} (font : Font7Seg C) (text : List Char)
    (pos : Point) :
    measure_string font text pos =
      ⟨⟨pos, ⟨(text.map (specCharWidth font)).sum, font.size.height⟩⟩,
       ⟨pos.x + ((text.map (specCharWidth font)).sum : Int), pos.y⟩⟩ := by
  simp only [measure_string, measure_fold, Nat.zero_add]

/-- C8: for every num, draw_number with point = false indexes SEG_PATS at
num % 10, which is always within the table bounds, and succeeds returning
the full cell width as the advance. -/
theorem C8_draw_number_total {C : Type} (font : Font7Seg C) (num : Nat)
    (area : Size) :
    num % 10 < SEG_PATS.length ∧
    ∃ ops, draw_number font num false area = some (area.width, ops) := by
  have hlen : SEG_PATS.length = 10 := rfl
  have hlt : num % 10 < SEG_PATS.length := by
    rw [hlen]; exact Nat.mod_lt num (by norm_num)
  refine ⟨hlt, ?_⟩
  obtain ⟨pat, hpat⟩ : ∃ pat, SEG_PATS.get? (num % 10) = some pat := by
    cases hg : SEG_PATS.get? (num % 10) with
    | none => exact absurd (List.get?_eq_none.mp hg) (Nat.not_le.mpr hlt)
    | some pat => exact ⟨pat, rfl⟩
  rw [List.get?_eq_getElem?] at hpat
  exact ⟨(segOpsOfPat pat).map DrawOp.seg, by simp [draw_number, hpat]⟩


/-- C9: for a character that is neither an ASCII digit nor the decimal point,
draw_string draws nothing and advances the cursor by 0 without an error, and
drawing the text 0,c,1 advances the cursor by exactly W + 0 + W. -/
theorem C9_unknown_chars (sz : Size) (col : Nat) (c : Char) (pos : Point)
    (h1 : c.isDigit = false) (h2 : c ≠ '.') :
    draw_string_chars (Font7Seg.new sz col) [c] pos = some (pos, []) ∧
    ∃ ops, draw_string_chars (Font7Seg.new sz col) ['0', c, '1'] pos
      = some (⟨pos.x + 2 * (sz.width : Int), pos.y⟩, ops) := by
  have d0 : Char.isDigit '0' = true := rfl
  have d1 : Char.isDigit '1' = true := rfl
  have e0 : ¬('0' = '.') := by decide
  have e1 : ¬('1' = '.') := by decide
  have n0 : Char.toNat '0' - Char.toNat '0' = 0 := rfl
  have n1 : Char.toNat '1' - Char.toNat '0' = 1 := rfl
  constructor
  · simp [draw_string_chars, h1, h2, Font7Seg.new]
  · refine ⟨(segOpsOfPat 0b00111111).map DrawOp.seg
        ++ (segOpsOfPat 0b00000110).map DrawOp.seg, ?_⟩
    simp only [draw_string_chars, Font7Seg.new, draw_number]
    simp [h1, h2, d0, d1, e0, e1, n0, n1, SEG_PATS, Point.mk.injEq]
    ring

/-- C9 witness: the unknown character x inside the text 0x1, at the 10x20
cell and origin. -/
theorem C9_unknown_chars_witness :
    draw_string_chars (Font7Seg.new ⟨10, 20⟩ (0 : Nat)) ['x'] ⟨0, 0⟩
      = some (⟨0, 0⟩, []) ∧
    ∃ ops, draw_string_chars (Font7Seg.new ⟨10, 20⟩ (0 : Nat)) ['0', 'x', '1']
        ⟨0, 0⟩
      = some (⟨(0 : Int) + 2 * ((10 : Nat) : Int), 0⟩, ops) :=
  C9_unknown_chars ⟨10, 20⟩ 0 'x' ⟨0, 0⟩ (by decide) (by decide)

lemma draw_number_no_clear {C : Type} (font : Font7Seg C) (num : Nat)
    (pt : Bool) (area : Size) (w : Nat) (ops : List (DrawOp C)) (b : C)
    (h : draw_number font num pt area = some (w, ops)) :
    DrawOp.clear b ∉ ops := by
  cases pt with
  | true =>
    simp only [draw_number, if_true, Option.some.injEq, Prod.mk.injEq] at h
    rcases h with ⟨-, h2⟩
    simp [← h2]
  | false =>
    simp only [draw_number, Bool.false_eq_true, if_false] at h
    rcases hg : SEG_PATS.get? (num % 10) with - | pat
    · rw [hg] at h
      simp at h
    · rw [hg] at h
      simp only [Option.some.injEq, Prod.mk.injEq] at h
      rcases h with ⟨-, h2⟩
      intro hmem
      rw [← h2] at hmem
      rcases List.mem_map.mp hmem with ⟨s, -, hs⟩
      cases hs

lemma draw_string_no_clear {C : Type} (font : Font7Seg C)
    (hbg : font.background_color = none) :
    ∀ (text : List Char) (pos fin : Point) (ops : List (DrawOp C)),
      draw_string_chars font text pos = some (fin, ops) →
      ∀ b, DrawOp.clear b ∉ ops := by
  intro text
  induction text with
  | nil =>
    intro pos fin ops h b
    simp only [draw_string_chars, Option.some.injEq, Prod.mk.injEq] at h
    rcases h with ⟨-, h2⟩
    simp [← h2]
  | cons ch rest ih =>
    intro pos fin ops h b
    simp only [draw_string_chars, hbg, List.nil_append] at h
    rcases hstep : (if ch.isDigit = true then
        draw_number font (ch.toNat - '0'.toNat) false font.size
      else if ch = '.' then draw_number font 0 true font.size
      else some (0, ([] : List (DrawOp C)))) with - | ⟨w, ops1⟩
    · rw [hstep] at h
      simp at h
    · rw [hstep] at h
      simp only [List.nil_append] at h
      rcases hrec : draw_string_chars font rest ⟨pos.x + (w : Int), pos.y⟩
          with - | ⟨fin2, ops2⟩
      · rw [hrec] at h
        simp at h
      · rw [hrec] at h
        simp only [Option.some.injEq, Prod.mk.injEq] at h
        rcases h with ⟨-, h2⟩
        rw [← h2]
        simp only [List.mem_append, not_or]
        constructor
        · split_ifs at hstep with hd hp
          · exact draw_number_no_clear font (ch.toNat - '0'.toNat) false
              font.size w ops1 b hstep
          · exact draw_number_no_clear font 0 true font.size w ops1 b hstep
          · simp only [Option.some.injEq, Prod.mk.injEq] at hstep
            rcases hstep with ⟨-, hstep2⟩
            simp [← hstep2]
        · exact ih ⟨pos.x + (w : Int), pos.y⟩ fin2 ops2 hrec b

/-- C10: a font built by new has no background color, so draw_string performs
no background clear: every drawing action it emits is a segment or the
decimal point, never a clear. -/
theorem C10_new_background_none (sz : Size) (col : Nat) :
    (Font7Seg.new sz col).background_color = none ∧
    ∀ (text : List Char) (pos fin : Point) (ops : List (DrawOp Nat)),
      draw_string_chars (Font7Seg.new sz col) text pos = some (fin, ops) →
      ∀ b, DrawOp.clear b ∉ ops :=
  ⟨rfl, fun text pos fin ops h b =>
    draw_string_no_clear (Font7Seg.new sz col) rfl text pos fin ops h b⟩

/-- C10 witness: drawing the text 1. with a freshly constructed font emits
the two segments of the digit 1 and the decimal point, and no clear. -/
theorem C10_new_background_none_witness :
    (Font7Seg.new ⟨10, 20⟩ (7 : Nat)).background_color = none ∧
    DrawOp.clear 7 ∉
      ([DrawOp.seg Seg.b, DrawOp.seg Seg.c, DrawOp.point] : List (DrawOp Nat)) :=
  ⟨(C10_new_background_none ⟨10, 20⟩ 7).1,
   (C10_new_background_none ⟨10, 20⟩ 7).2 ['1', '.'] ⟨0, 0⟩ ⟨14, 0⟩
     [DrawOp.seg Seg.b, DrawOp.seg Seg.c, DrawOp.point] (by decide) 7⟩

end Font7SegSpec
